import Mathlib

/-!
Shallow embedding of the Pyrobase command-and-message engine
(`src/main.rs`): the `App` state, the message-log ring buffer
(`App::add_message`), the autocomplete filter
(`App::get_autocomplete_suggestions`), the key/line dispatch inside
`run_app`, the passive tick, and the renderer's newest-first message view
from `ui`.  Resource counters are Rust `u64`; the increments reasoned
about here are far below `2^64`, so they are modelled as `Nat`.
-/

namespace Pyrobase

/-- `enum AppState { Home, Game }` (src/main.rs lines 52-56). -/
inductive AppState where
  | Home
  | Game
deriving DecidableEq, Repr

/-- `struct Resources` (src/main.rs lines 58-66): six `u64` counters. -/
structure Resources where
  firestone : Nat
  emberash : Nat
  heatcores : Nat
  sulfur_ore : Nat
  charcoal_essence : Nat
  ashen_dust : Nat
deriving DecidableEq, Repr

/-- `enum Tool` (src/main.rs lines 76-84). -/
inductive Tool where
  | Flamestarter
  | BlazeHammer
  | MoltenCutter
  | Pyrodrill
  | FireManipulator
  | PhoenixBeacon
deriving DecidableEq, Repr

/-- `enum Area` (src/main.rs lines 86-93). -/
inductive Area where
  | ScorchedPlains
  | EmberFields
  | FlameforgeRuins
  | InfernoWells
  | PyroNexus
deriving DecidableEq, Repr

/-- `enum MessageColor` (src/main.rs lines 95-103). -/
inductive MessageColor where
  | Red
  | Green
  | Yellow
  | Blue
  | Cyan
  | White
deriving DecidableEq, Repr

/-- `struct StoredMessage { content, color }` (src/main.rs lines 126-130). -/
structure StoredMessage where
  content : String
  color : MessageColor
deriving DecidableEq, Repr

/-- `struct GameSlot` (src/main.rs lines 68-74). -/
structure GameSlot where
  resources : Resources
  last_command : String
  unlocked_tools : List Tool
  current_area : Area
deriving DecidableEq, Repr

/-- `struct App` (src/main.rs lines 132-144).  `game_slots` is the
`[Option<GameSlot>; 3]` array, modelled as a list (length 3 at
construction); `message_index` is the ring-buffer write cursor. -/
structure App where
  state : AppState
  input : String
  resources : Resources
  last_command : String
  commands : List String
  game_slots : List (Option GameSlot)
  current_tool : Option Tool
  current_area : Area
  messages : List StoredMessage
  message_index : Nat
deriving DecidableEq, Repr

/-- Rust `str::trim` (applied to the input at src/main.rs line 294):
strip leading and trailing whitespace, modelled on the character list. -/
def trim (s : String) : String :=
  String.mk (((s.data.dropWhile Char.isWhitespace).reverse.dropWhile Char.isWhitespace).reverse)

/-- Rust `str::to_lowercase` (applied to the trimmed input at
src/main.rs line 294): lowercase each character. -/
def to_lowercase (s : String) : String :=
  String.mk (s.data.map Char.toLower)

/-- `App::new` (src/main.rs lines 147-176). -/
def App.new : App where
  state := AppState.Home
  input := ""
  resources :=
    { firestone := 0, emberash := 0, heatcores := 0,
      sulfur_ore := 0, charcoal_essence := 0, ashen_dust := 0 }
  last_command := ""
  commands := ["collect", "mine", "explore", "craft", "quit"]
  game_slots := [none, none, none]
  current_tool := some Tool.Flamestarter
  current_area := Area.ScorchedPlains
  messages :=
    [{ content := "Welcome to Pyrobase. Type 'help' for commands.",
       color := MessageColor.Yellow }]
  message_index := 0

/-- `App::get_autocomplete_suggestions` (src/main.rs lines 193-199):
keeps the commands `cmd` with `cmd.starts_with(&self.input)`; Rust's
`starts_with` is the case-sensitive character-sequence prefix test,
modelled on the character lists of the strings. -/
def App.get_autocomplete_suggestions (a : App) : List String :=
  a.commands.filter (fun cmd => a.input.data.isPrefixOf cmd.data)

/-- `App::add_message` (src/main.rs lines 201-221).  At or above 1000
stored messages the cursor advances to `(message_index + 1) % 1000` and
that slot is overwritten when it exists (`get_mut` returns `Some` exactly
when the index is in bounds), else the message is pushed; below 1000 the
message is pushed and the cursor is set to the new last index. -/
def App.add_message (a : App) (content : String) (color : MessageColor) : App :=
  if a.messages.length ≥ 1000 then
    let idx := (a.message_index + 1) % 1000
    if idx < a.messages.length then
      { a with message_index := idx,
               messages := a.messages.set idx ({ content := content, color := color } : StoredMessage) }
    else
      { a with message_index := idx,
               messages := a.messages ++ [{ content := content, color := color }] }
  else
    { a with messages := a.messages ++ [{ content := content, color := color }],
             message_index := (a.messages ++ [({ content := content, color := color } : StoredMessage)]).length - 1 }

/-- The renderer's newest-first message view (src/main.rs lines 452-463):
`app.messages.iter().rev().take(10)`, with the hard-coded count 10
generalised to a parameter `n`. -/
def App.recent (a : App) (n : Nat) : List StoredMessage :=
  a.messages.reverse.take n

/-- The renderer's autocomplete display text (src/main.rs lines 469-474):
empty input shows nothing, otherwise the suggestions are joined with
", " inside " [...]". -/
def App.suggestions_text (a : App) : String :=
  if a.input = "" then ""
  else " [" ++ String.intercalate ", " a.get_autocomplete_suggestions ++ "]"

/-- Result of handling one key event in `run_app`: the new `App`, whether
the loop returned (`exit`), and whether `App::save` ran (`saved`); the
save itself is file I/O outside the engine state. -/
structure StepResult where
  app : App
  exit : Bool
  saved : Bool
deriving DecidableEq, Repr

/-- The key codes distinguished by `run_app`'s match arms; every other
`crossterm` key code falls into the wildcard arms, collapsed to `Other`. -/
inductive KeyCode where
  | Char (c : Char)
  | Backspace
  | Enter
  | Esc
  | Other
deriving DecidableEq, Repr

/-- Loading one game slot on the home screen (src/main.rs lines 238-267,
the bodies of the `'1'`/`'2'`/`'3'` arms with slot index `i`): switch to
`Game` and, when the slot is present, copy its snapshot into the live
fields (`unlocked_tools.first()` becomes the current tool). -/
def load_slot (a : App) (i : Nat) : App :=
  let a1 := { a with state := AppState.Game }
  match a.game_slots.get? i with
  | some (some slot) =>
      { a1 with resources := slot.resources,
                last_command := slot.last_command,
                current_tool := slot.unlocked_tools.head?,
                current_area := slot.current_area }
  | _ => a1

/-- The `'n'` arm on the home screen (src/main.rs lines 268-282): reset
resources, last command, tool and area, and switch to `Game`. -/
def new_game (a : App) : App :=
  { a with state := AppState.Game,
           resources :=
             { firestone := 0, emberash := 0, heatcores := 0,
               sulfur_ore := 0, charcoal_essence := 0, ashen_dust := 0 },
           last_command := "",
           current_tool := some Tool.Flamestarter,
           current_area := Area.ScorchedPlains }

/-- The `AppState::Home` key match (src/main.rs lines 237-284). -/
def handle_key_home (a : App) (k : KeyCode) : App :=
  match k with
  | KeyCode.Char '1' => load_slot a 0
  | KeyCode.Char '2' => load_slot a 1
  | KeyCode.Char '3' => load_slot a 2
  | KeyCode.Char 'n' => new_game a
  | _ => a

/-- The `KeyCode::Enter` arm of the `AppState::Game` match
(src/main.rs lines 292-324): set `last_command` to the raw input, match
the trimmed lowercased input; `"q"`/`"quit"` saves and returns from the
loop before the input is cleared; every other branch falls through to
`app.input.clear()`. -/
def submit_line (a0 : App) : StepResult :=
  let a := { a0 with last_command := a0.input }
  let cmd := to_lowercase (trim a0.input)
  if cmd = "q" ∨ cmd = "quit" then
    { app := a, exit := true, saved := true }
  else
    let a2 :=
      if cmd = "collect" then
        ({ a with resources := { a.resources with
             firestone := a.resources.firestone + 1 } }).add_message
          "Collected 1 firestone" MessageColor.Green
      else if cmd = "mine" then
        match a.current_tool with
        | some Tool.BlazeHammer | some Tool.Pyrodrill =>
            ({ a with resources := { a.resources with
                 emberash := a.resources.emberash + 2 } }).add_message
              "Mined 2 emberash" MessageColor.Green
        | _ => a.add_message "You need better mining tools!" MessageColor.Red
      else if cmd = "help" then
        (a.add_message "Available commands:" MessageColor.Cyan).add_message
          "collect, mine, explore, craft, quit" MessageColor.Cyan
      else if cmd = "" then a
      else a.add_message "Unknown command. Type 'help' for commands." MessageColor.Red
    { app := { a2 with input := "" }, exit := false, saved := false }

/-- The `AppState::Game` key match (src/main.rs lines 285-326):
characters are pushed onto the input, backspace pops the last character
(`String::pop`), enter submits the line, anything else is ignored. -/
def handle_key_game (a : App) (k : KeyCode) : StepResult :=
  match k with
  | KeyCode.Char c => { app := { a with input := a.input.push c }, exit := false, saved := false }
  | KeyCode.Backspace => { app := { a with input := a.input.dropRight 1 }, exit := false, saved := false }
  | KeyCode.Enter => submit_line a
  | _ => { app := a, exit := false, saved := false }

/-- The full key dispatch of `run_app` (src/main.rs lines 236-327):
`match app.state` selects the home or game key handler; home-screen keys
never exit or save. -/
def handle_key (a : App) (k : KeyCode) : StepResult :=
  match a.state with
  | AppState.Home => { app := handle_key_home a k, exit := false, saved := false }
  | AppState.Game => handle_key_game a k

/-- One elapse of the fixed tick period (src/main.rs lines 331-338):
while in `Game`, firestone increases by 1; on the home screen nothing
changes. -/
def tick (a : App) : App :=
  match a.state with
  | AppState.Game =>
      { a with resources := { a.resources with
          firestone := a.resources.firestone + 1 } }
  | AppState.Home => a

/-- `k` successive elapses of the tick period. -/
def ticks : Nat → App → App
  | 0, a => a
  | n + 1, a => tick (ticks n a)

/-- An `App` whose message log is empty, for log scenarios (the welcome
message of `App::new` removed). -/
def empty_log : App :=
  { App.new with messages := [], message_index := 0 }

/-- `k` successive `add_message` calls with a fixed content and color. -/
def append_n (a : App) (content : String) (color : MessageColor) : Nat → App
  | 0 => a
  | k + 1 => (append_n a content color k).add_message content color

/- ### Helper lemmas -/

/-- `add_message` never touches the resource counters. -/
theorem add_message_resources (a : App) (c : String) (col : MessageColor) :
    (a.add_message c col).resources = a.resources := by
  simp only [App.add_message]
  split
  · split <;> rfl
  · rfl

/-- Below capacity, `add_message` pushes the message and points the
cursor at it. -/
theorem add_message_of_lt (a : App) (c : String) (col : MessageColor)
    (h : a.messages.length < 1000) :
    a.add_message c col =
      { a with messages := a.messages ++ [{ content := c, color := col }],
               message_index := a.messages.length } := by
  simp only [App.add_message]
  rw [if_neg (Nat.not_le.mpr h)]
  simp

/-- `add_message` keeps the log within capacity. -/
theorem add_message_length_le (a : App) (c : String) (col : MessageColor)
    (h : a.messages.length ≤ 1000) :
    (a.add_message c col).messages.length ≤ 1000 := by
  simp only [App.add_message]
  split
  · rename_i hge
    rw [if_pos]
    · simpa using h
    · calc (a.message_index + 1) % 1000 < 1000 := Nat.mod_lt _ (by omega)
        _ ≤ a.messages.length := hge
  · rename_i hlt
    simp only [List.length_append, List.length_singleton]
    omega

/-- With an eligible tool, submitting a line that trims and lowercases
to "mine" produces the emberash gain and the success log. -/
theorem submit_line_mine_eligible (a : App) (h : to_lowercase (trim a.input) = "mine")
    (ht : a.current_tool = some Tool.BlazeHammer ∨ a.current_tool = some Tool.Pyrodrill) :
    submit_line a =
      { app := { ({ a with
                    last_command := a.input,
                    resources := { a.resources with
                                   emberash := a.resources.emberash + 2 } }).add_message
                   "Mined 2 emberash" MessageColor.Green with input := "" },
        exit := false, saved := false } := by
  simp only [submit_line]
  rw [h]
  rw [show ({ a with last_command := a.input } : App).current_tool = a.current_tool from rfl]
  rcases ht with ht | ht <;> rw [ht] <;> rfl

/-- With any other tool (or none), submitting "mine" produces only the
failure log. -/
theorem submit_line_mine_ineligible (a : App) (h : to_lowercase (trim a.input) = "mine")
    (h1 : a.current_tool ≠ some Tool.BlazeHammer) (h2 : a.current_tool ≠ some Tool.Pyrodrill) :
    submit_line a =
      { app := { ({ a with last_command := a.input }).add_message
                   "You need better mining tools!" MessageColor.Red with input := "" },
        exit := false, saved := false } := by
  simp only [submit_line]
  rw [h]
  rw [show ({ a with last_command := a.input } : App).current_tool = a.current_tool from rfl]
  rcases htool : a.current_tool with _ | t
  · rfl
  · cases t
    · rfl
    · exact absurd htool h1
    · rfl
    · exact absurd htool h2
    · rfl
    · rfl

/-- C4: submitting "mine" with BlazeHammer or Pyrodrill equipped
increases emberash by exactly 2 (all other counters unchanged) and logs
"Mined 2 emberash" with success (green) severity; with any other tool or
none, all resources are unchanged and "You need better mining tools!" is
logged with failure (red) severity. -/
theorem C4_mine (a : App) (h : to_lowercase (trim a.input) = "mine") :
    ((a.current_tool = some Tool.BlazeHammer ∨ a.current_tool = some Tool.Pyrodrill) →
      (submit_line a).app.resources =
        { a.resources with emberash := a.resources.emberash + 2 }) ∧
    (a.current_tool ≠ some Tool.BlazeHammer → a.current_tool ≠ some Tool.Pyrodrill →
      (submit_line a).app.resources = a.resources) ∧
    (a.messages.length < 1000 →
      ((a.current_tool = some Tool.BlazeHammer ∨ a.current_tool = some Tool.Pyrodrill) →
        (submit_line a).app.messages =
          a.messages ++ [{ content := "Mined 2 emberash", color := MessageColor.Green }]) ∧
      (a.current_tool ≠ some Tool.BlazeHammer → a.current_tool ≠ some Tool.Pyrodrill →
        (submit_line a).app.messages =
          a.messages ++ [{ content := "You need better mining tools!",
                           color := MessageColor.Red }])) := by
  refine ⟨fun ht => ?_, fun h1 h2 => ?_, fun hlen => ⟨fun ht => ?_, fun h1 h2 => ?_⟩⟩
  · rw [submit_line_mine_eligible a h ht, add_message_resources]
  · rw [submit_line_mine_ineligible a h h1 h2, add_message_resources]
  · rw [submit_line_mine_eligible a h ht,
      add_message_of_lt _ _ _ (by simpa using hlen)]
  · rw [submit_line_mine_ineligible a h h1 h2,
      add_message_of_lt _ _ _ (by simpa using hlen)]

/-- Witness for `C4_mine`: a concrete game state with BlazeHammer
equipped gains 2 emberash from "mine". -/
theorem C4_mine_witness :
    (submit_line { App.new with state := AppState.Game, input := "mine", current_tool := some Tool.BlazeHammer }).app.resources =
      { App.new.resources with emberash := 2 } :=
  (C4_mine { App.new with state := AppState.Game, input := "mine", current_tool := some Tool.BlazeHammer }
    (by decide)).1 (Or.inl rfl)

/-- C8: a submitted line that is empty or all-whitespace hits the `""`
match arm: no message is appended, the message log, its cursor, every
resource counter, the state, the tool and the area are unchanged, the
input buffer is cleared, and the loop does not exit. -/
theorem C8_empty_submit (a : App) (h : trim a.input = "") :
    (submit_line a).app.messages = a.messages ∧
    (submit_line a).app.message_index = a.message_index ∧
    (submit_line a).app.resources = a.resources ∧
    (submit_line a).app.state = a.state ∧
    (submit_line a).app.current_tool = a.current_tool ∧
    (submit_line a).app.current_area = a.current_area ∧
    (submit_line a).app.input = "" ∧
    (submit_line a).exit = false := by
  have h2 : to_lowercase (trim a.input) = "" := by rw [h]; rfl
  simp only [submit_line]
  rw [h2]
  exact ⟨rfl, rfl, rfl, rfl, rfl, rfl, rfl, rfl⟩

/-- Witness for `C8_empty_submit`: submitting three spaces changes
neither the log nor the resources and clears the input. -/
theorem C8_empty_submit_witness :
    (submit_line { App.new with state := AppState.Game, input := "   " }).app.messages =
      ({ App.new with state := AppState.Game, input := "   " } : App).messages ∧
    (submit_line { App.new with state := AppState.Game, input := "   " }).app.message_index =
      ({ App.new with state := AppState.Game, input := "   " } : App).message_index ∧
    (submit_line { App.new with state := AppState.Game, input := "   " }).app.resources =
      ({ App.new with state := AppState.Game, input := "   " } : App).resources ∧
    (submit_line { App.new with state := AppState.Game, input := "   " }).app.state =
      ({ App.new with state := AppState.Game, input := "   " } : App).state ∧
    (submit_line { App.new with state := AppState.Game, input := "   " }).app.current_tool =
      ({ App.new with state := AppState.Game, input := "   " } : App).current_tool ∧
    (submit_line { App.new with state := AppState.Game, input := "   " }).app.current_area =
      ({ App.new with state := AppState.Game, input := "   " } : App).current_area ∧
    (submit_line { App.new with state := AppState.Game, input := "   " }).app.input = "" ∧
    (submit_line { App.new with state := AppState.Game, input := "   " }).exit = false :=
  C8_empty_submit { App.new with state := AppState.Game, input := "   " } (by decide)

/-- `tick` never changes the session state. -/
theorem tick_state (a : App) : (tick a).state = a.state := by
  unfold tick
  rcases h : a.state <;> first
  | exact h
  | rfl

/-- C6: while in game, `k` elapses of the tick period add exactly `k`
firestone; on the home screen the tick changes nothing at all. -/
theorem C6_tick (k : Nat) (a : App) :
    (a.state = AppState.Game →
      (ticks k a).resources.firestone = a.resources.firestone + k) ∧
    (a.state = AppState.Home → ticks k a = a) := by
  induction k with
  | zero => exact ⟨fun _ => rfl, fun _ => rfl⟩
  | succ n ih =>
    constructor
    · intro h
      have hstate : (ticks n a).state = AppState.Game := by
        clear ih
        induction n with
        | zero => exact h
        | succ m ihm => rw [ticks, tick_state]; exact ihm
      show (tick (ticks n a)).resources.firestone = a.resources.firestone + (n + 1)
      unfold tick
      rw [hstate]
      show (ticks n a).resources.firestone + 1 = a.resources.firestone + (n + 1)
      rw [ih.1 h]
      omega
    · intro h
      show tick (ticks n a) = a
      rw [ih.2 h]
      unfold tick
      rw [h]

/-- Witness for `C6_tick`: three ticks in game take firestone from 0 to
3, and three ticks on the home screen change nothing. -/
theorem C6_tick_witness :
    (ticks 3 { App.new with state := AppState.Game }).resources.firestone =
      ({ App.new with state := AppState.Game } : App).resources.firestone + 3 ∧
    ticks 3 App.new = App.new :=
  ⟨(C6_tick 3 { App.new with state := AppState.Game }).1 rfl,
   (C6_tick 3 App.new).2 rfl⟩

/-- C5: starting from any log holding at most 1000 messages, any
sequence of (always-succeeding) `add_message` calls leaves the log
holding at most 1000 messages. -/
theorem C5_log_capacity (ops : List (String × MessageColor)) (a : App)
    (h : a.messages.length ≤ 1000) :
    (ops.foldl (fun s p => s.add_message p.1 p.2) a).messages.length ≤ 1000 := by
  induction ops generalizing a with
  | nil => exact h
  | cons p ps ih =>
    rw [List.foldl_cons]
    exact ih _ (add_message_length_le a p.1 p.2 h)

/-- Witness for `C5_log_capacity`: two appends onto the fresh app keep
the log within capacity. -/
theorem C5_log_capacity_witness :
    (([("x", MessageColor.Green), ("y", MessageColor.Red)] :
        List (String × MessageColor)).foldl
      (fun s p => s.add_message p.1 p.2) App.new).messages.length ≤ 1000 :=
  C5_log_capacity [("x", MessageColor.Green), ("y", MessageColor.Red)] App.new (by decide)

/-- Submitting any line leaves heatcores, sulfur ore, charcoal essence
and ashen dust untouched. -/
theorem submit_line_other_resources (a : App) :
    (submit_line a).app.resources.heatcores = a.resources.heatcores ∧
    (submit_line a).app.resources.sulfur_ore = a.resources.sulfur_ore ∧
    (submit_line a).app.resources.charcoal_essence = a.resources.charcoal_essence ∧
    (submit_line a).app.resources.ashen_dust = a.resources.ashen_dust := by
  simp only [submit_line]
  repeat' split
  all_goals simp [add_message_resources]

/-- C10: in game, no key event and no tick ever changes heatcores,
sulfur ore, charcoal essence or ashen dust; those four counters move
only through the home-screen slot-load or new-game transitions. -/
theorem C10_frame (a : App) (k : KeyCode) (h : a.state = AppState.Game) :
    ((handle_key a k).app.resources.heatcores = a.resources.heatcores ∧
     (handle_key a k).app.resources.sulfur_ore = a.resources.sulfur_ore ∧
     (handle_key a k).app.resources.charcoal_essence = a.resources.charcoal_essence ∧
     (handle_key a k).app.resources.ashen_dust = a.resources.ashen_dust) ∧
    ((tick a).resources.heatcores = a.resources.heatcores ∧
     (tick a).resources.sulfur_ore = a.resources.sulfur_ore ∧
     (tick a).resources.charcoal_essence = a.resources.charcoal_essence ∧
     (tick a).resources.ashen_dust = a.resources.ashen_dust) := by
  have hk : handle_key a k = handle_key_game a k := by
    unfold handle_key; rw [h]
  constructor
  · rw [hk]
    cases k with
    | Char c => exact ⟨rfl, rfl, rfl, rfl⟩
    | Backspace => exact ⟨rfl, rfl, rfl, rfl⟩
    | Enter => exact submit_line_other_resources a
    | Esc => exact ⟨rfl, rfl, rfl, rfl⟩
    | Other => exact ⟨rfl, rfl, rfl, rfl⟩
  · unfold tick
    rw [h]
    exact ⟨rfl, rfl, rfl, rfl⟩

/-- Witness for `C10_frame`: pressing enter on "collect" in a concrete
game state leaves the four untouched counters at their old values. -/
theorem C10_frame_witness :
    (((handle_key { App.new with state := AppState.Game, input := "collect" } KeyCode.Enter).app.resources.heatcores =
        ({ App.new with state := AppState.Game, input := "collect" } : App).resources.heatcores ∧
      (handle_key { App.new with state := AppState.Game, input := "collect" } KeyCode.Enter).app.resources.sulfur_ore =
        ({ App.new with state := AppState.Game, input := "collect" } : App).resources.sulfur_ore ∧
      (handle_key { App.new with state := AppState.Game, input := "collect" } KeyCode.Enter).app.resources.charcoal_essence =
        ({ App.new with state := AppState.Game, input := "collect" } : App).resources.charcoal_essence ∧
      (handle_key { App.new with state := AppState.Game, input := "collect" } KeyCode.Enter).app.resources.ashen_dust =
        ({ App.new with state := AppState.Game, input := "collect" } : App).resources.ashen_dust) ∧
     ((tick { App.new with state := AppState.Game, input := "collect" }).resources.heatcores =
        ({ App.new with state := AppState.Game, input := "collect" } : App).resources.heatcores ∧
      (tick { App.new with state := AppState.Game, input := "collect" }).resources.sulfur_ore =
        ({ App.new with state := AppState.Game, input := "collect" } : App).resources.sulfur_ore ∧
      (tick { App.new with state := AppState.Game, input := "collect" }).resources.charcoal_essence =
        ({ App.new with state := AppState.Game, input := "collect" } : App).resources.charcoal_essence ∧
      (tick { App.new with state := AppState.Game, input := "collect" }).resources.ashen_dust =
        ({ App.new with state := AppState.Game, input := "collect" } : App).resources.ashen_dust)) :=
  C10_frame { App.new with state := AppState.Game, input := "collect" } KeyCode.Enter rfl

/-- C9 counterexample: in a concrete in-game state, an escape key event
does not terminate the session (it is ignored entirely: no exit, no
save, no state change), refuting immediate-exit-on-escape. -/
theorem C9_escape_counterexample :
    (handle_key { App.new with state := AppState.Game } KeyCode.Esc).exit = false ∧
    (handle_key { App.new with state := AppState.Game } KeyCode.Esc).saved = false ∧
    (handle_key { App.new with state := AppState.Game } KeyCode.Esc).app =
      { App.new with state := AppState.Game } := by decide

/-- C9 amended: while in game, escape is ignored (no exit, no save, app
unchanged); the loop exits only through a submitted "quit"/"q" line,
and whenever it exits it has performed the save. -/
theorem C9_exit_only_via_quit (a : App) (k : KeyCode) (h : a.state = AppState.Game) :
    handle_key a KeyCode.Esc = { app := a, exit := false, saved := false } ∧
    ((handle_key a k).exit = true → (handle_key a k).saved = true) := by
  have hk : ∀ k' : KeyCode, handle_key a k' = handle_key_game a k' := by
    intro k'; unfold handle_key; rw [h]
  constructor
  · rw [hk]; rfl
  · rw [hk]
    cases k with
    | Enter =>
      show (submit_line a).exit = true → (submit_line a).saved = true
      simp only [submit_line]
      split
      · intro _; rfl
      · intro hx; exact absurd hx (by simp)
    | Char c => intro hx; exact absurd hx (by simp [handle_key_game])
    | Backspace => intro hx; exact absurd hx (by simp [handle_key_game])
    | Esc => intro hx; exact absurd hx (by simp [handle_key_game])
    | Other => intro hx; exact absurd hx (by simp [handle_key_game])

/-- Witness for `C9_exit_only_via_quit`: in a concrete game state whose
pending input is "quit", escape is ignored, and if the enter key exits
then the session was saved. -/
theorem C9_exit_only_via_quit_witness :
    handle_key { App.new with state := AppState.Game, input := "quit" } KeyCode.Esc =
      { app := { App.new with state := AppState.Game, input := "quit" },
        exit := false, saved := false } ∧
    ((handle_key { App.new with state := AppState.Game, input := "quit" } KeyCode.Enter).exit = true →
      (handle_key { App.new with state := AppState.Game, input := "quit" } KeyCode.Enter).saved = true) :=
  C9_exit_only_via_quit { App.new with state := AppState.Game, input := "quit" }
    KeyCode.Enter rfl

/-- C7 counterexample: on the fresh app the input is empty and the
autocomplete function returns the whole command vocabulary, not the
empty list. -/
theorem C7_empty_counterexample :
    App.get_autocomplete_suggestions App.new =
      ["collect", "mine", "explore", "craft", "quit"] ∧
    App.get_autocomplete_suggestions App.new ≠ [] := by decide

/-- C7 amended: the autocomplete function returns exactly the vocabulary
entries of which the input is a case-sensitive prefix, in vocabulary
order; for the empty partial the function returns the full vocabulary
(not the empty list), while the renderer separately displays an empty
suggestion string for empty input. -/
theorem C7_autocomplete (a : App) (s : String) :
    (s ∈ a.get_autocomplete_suggestions ↔
      s ∈ a.commands ∧ a.input.data.isPrefixOf s.data = true) ∧
    a.get_autocomplete_suggestions.Sublist a.commands ∧
    (a.input = "" →
      a.get_autocomplete_suggestions = a.commands ∧ a.suggestions_text = "") := by
  refine ⟨?_, ?_, fun h => ⟨?_, ?_⟩⟩
  · simp [App.get_autocomplete_suggestions, List.mem_filter]
  · exact List.filter_sublist _
  · unfold App.get_autocomplete_suggestions
    rw [h]
    apply List.filter_eq_self.mpr
    intro x _
    rw [show (("" : String).data) = [] from rfl]
    exact List.isPrefixOf_nil_left
  · unfold App.suggestions_text
    rw [h, if_pos rfl]

/-- Witness for `C7_autocomplete` at the fresh app (empty input) and the
entry "collect". -/
theorem C7_autocomplete_witness :
    ("collect" ∈ App.get_autocomplete_suggestions App.new ↔
      "collect" ∈ App.new.commands ∧
        App.new.input.data.isPrefixOf ("collect" : String).data = true) ∧
    (App.get_autocomplete_suggestions App.new).Sublist App.new.commands ∧
    (App.get_autocomplete_suggestions App.new = App.new.commands ∧
      App.suggestions_text App.new = "") := by
  obtain ⟨h1, h2, h3⟩ := C7_autocomplete App.new "collect"
  exact ⟨h1, h2, h3 rfl⟩

/-- C1 counterexample: submitting "colect" (edit distance 1 from the
vocabulary entry "collect") yields the uniform unknown-command message,
and no "Did you mean" suggestion message is produced. -/
theorem C1_colect_counterexample :
    (submit_line { App.new with state := AppState.Game, input := "colect" }).app.messages.map
        StoredMessage.content =
      ["Welcome to Pyrobase. Type 'help' for commands.",
       "Unknown command. Type 'help' for commands."] ∧
    "Unknown command: 'colect'. Did you mean 'collect'?" ∉
      (submit_line { App.new with state := AppState.Game, input := "colect" }).app.messages.map
        StoredMessage.content := by decide

/-- C1 amended: every submitted line whose trimmed lowercased form is
not one of the dispatched keywords (q, quit, collect, mine, help) and
not empty falls into one uniform wildcard branch: the appended message
is "Unknown command. Type 'help' for commands." with failure (red)
severity, resources are unchanged and the loop continues; there is no
edit-distance computation and no Suggest classification. -/
theorem C1_unknown_uniform (a : App)
    (hq : to_lowercase (trim a.input) ≠ "q")
    (hquit : to_lowercase (trim a.input) ≠ "quit")
    (hc : to_lowercase (trim a.input) ≠ "collect")
    (hm : to_lowercase (trim a.input) ≠ "mine")
    (hh : to_lowercase (trim a.input) ≠ "help")
    (he : to_lowercase (trim a.input) ≠ "")
    (hlen : a.messages.length < 1000) :
    (submit_line a).app.messages =
      a.messages ++ [{ content := "Unknown command. Type 'help' for commands.",
                       color := MessageColor.Red }] ∧
    (submit_line a).app.resources = a.resources ∧
    (submit_line a).exit = false := by
  have hne := not_or.mpr ⟨hq, hquit⟩
  refine ⟨?_, ?_, ?_⟩
  · simp only [submit_line]
    rw [if_neg hne, if_neg hc, if_neg hm, if_neg hh, if_neg he,
      add_message_of_lt _ _ _ (by exact hlen)]
  · simp only [submit_line]
    rw [if_neg hne, if_neg hc, if_neg hm, if_neg hh, if_neg he, add_message_resources]
  · simp only [submit_line]
    rw [if_neg hne]

/-- Witness for `C1_unknown_uniform` at the concrete input "colect". -/
theorem C1_unknown_uniform_witness :
    (submit_line { App.new with state := AppState.Game, input := "colect" }).app.messages =
      ({ App.new with state := AppState.Game, input := "colect" } : App).messages ++
        [{ content := "Unknown command. Type 'help' for commands.",
           color := MessageColor.Red }] ∧
    (submit_line { App.new with state := AppState.Game, input := "colect" }).app.resources =
      ({ App.new with state := AppState.Game, input := "colect" } : App).resources ∧
    (submit_line { App.new with state := AppState.Game, input := "colect" }).exit = false :=
  C1_unknown_uniform { App.new with state := AppState.Game, input := "colect" }
    (by decide) (by decide) (by decide) (by decide) (by decide) (by decide) (by decide)

/-- C2: "explore" and "craft" sit in the command vocabulary and are
advertised by the help command's own output, yet submitting either one
falls into the wildcard arm and appends the unknown-command failure
message with no state change — the code contradicts its own help text. -/
theorem C2_explore_craft_unknown :
    "explore" ∈ App.new.commands ∧ "craft" ∈ App.new.commands ∧
    (submit_line { App.new with state := AppState.Game, input := "explore" }).app.messages.map
        StoredMessage.content =
      ["Welcome to Pyrobase. Type 'help' for commands.",
       "Unknown command. Type 'help' for commands."] ∧
    (submit_line { App.new with state := AppState.Game, input := "craft" }).app.messages.map
        StoredMessage.content =
      ["Welcome to Pyrobase. Type 'help' for commands.",
       "Unknown command. Type 'help' for commands."] ∧
    (submit_line { App.new with state := AppState.Game, input := "explore" }).app.resources =
      App.new.resources ∧
    (submit_line { App.new with state := AppState.Game, input := "help" }).app.messages.map
        StoredMessage.content =
      ["Welcome to Pyrobase. Type 'help' for commands.",
       "Available commands:",
       "collect, mine, explore, craft, quit"] := by decide

/-- Filling the empty log with `k ≤ 1000` copies of one message leaves
`k` stored messages with the cursor on the last slot. -/
theorem append_n_spec (k : Nat) (hk : k ≤ 1000) :
    (append_n empty_log "a" MessageColor.White k).messages =
      List.replicate k { content := "a", color := MessageColor.White } ∧
    (append_n empty_log "a" MessageColor.White k).message_index = k - 1 := by
  induction k with
  | zero => exact ⟨rfl, rfl⟩
  | succ n ih =>
    obtain ⟨hm, hi⟩ := ih (by omega)
    have hlt : (append_n empty_log "a" MessageColor.White n).messages.length < 1000 := by
      rw [hm, List.length_replicate]; omega
    constructor
    · show ((append_n empty_log "a" MessageColor.White n).add_message
        "a" MessageColor.White).messages = _
      rw [add_message_of_lt _ _ _ hlt]
      show (append_n empty_log "a" MessageColor.White n).messages ++
        [{ content := "a", color := MessageColor.White }] = _
      rw [hm]
      exact (List.replicate_succ' n _).symm
    · show ((append_n empty_log "a" MessageColor.White n).add_message
        "a" MessageColor.White).message_index = _
      rw [add_message_of_lt _ _ _ hlt]
      show (append_n empty_log "a" MessageColor.White n).messages.length = n + 1 - 1
      rw [hm, List.length_replicate]
      omega

/-- At capacity with the cursor on the last slot, the next `add_message`
overwrites array slot 0 (the oldest entry) and moves the cursor there. -/
theorem add_message_at_capacity (a : App) (b : StoredMessage)
    (hm : a.messages = List.replicate 1000 { content := "a", color := MessageColor.White })
    (hi : a.message_index = 999) :
    (a.add_message b.content b.color).messages =
      b :: List.replicate 999 { content := "a", color := MessageColor.White } ∧
    (a.add_message b.content b.color).message_index = 0 := by
  simp only [App.add_message]
  rw [hm, hi, List.length_replicate]
  rw [if_pos (by omega : (1000 : Nat) ≥ 1000)]
  rw [show (999 + 1) % 1000 = 0 from by norm_num]
  rw [if_pos (by omega : (0 : Nat) < 1000)]
  refine ⟨?_, rfl⟩
  show (List.replicate 1000 _).set 0 _ = _
  rw [show (1000 : Nat) = 999 + 1 from rfl, List.replicate_succ, List.set_cons_zero]

/-- C3: 1001 sequential appends into an empty log of capacity 1000 —
1000 messages "a" followed by one message "b".  The 1001st message "b"
is correctly written into array slot 0 over the oldest entry, but the
renderer's newest-first view reverses array order and ignores the
cursor, so `recent 1` reports the 1000th message "a", not the 1001st
message "b". -/
theorem C3_ring_read_ignores_cursor :
    ((append_n empty_log "a" MessageColor.White 1000).add_message
        "b" MessageColor.White).recent 1 =
      [{ content := "a", color := MessageColor.White }] ∧
    ((append_n empty_log "a" MessageColor.White 1000).add_message
        "b" MessageColor.White).messages.head? =
      some { content := "b", color := MessageColor.White } := by
  obtain ⟨hm, hi⟩ := append_n_spec 1000 (by omega)
  obtain ⟨hmsg, _⟩ := add_message_at_capacity _
    { content := "b", color := MessageColor.White } hm hi
  constructor
  · unfold App.recent
    rw [hmsg, List.reverse_cons, List.reverse_replicate]
    rw [show (999 : Nat) = 998 + 1 from rfl, List.replicate_succ, List.cons_append,
      List.take_succ_cons, List.take_zero]
  · rw [hmsg]
    rfl


end Pyrobase
